import Mathlib

/-!
# Verification of the DataLens profiling and rule-inference engine

Shallow embedding of `src/profiler.py` and `src/pbl_generator.py`.

Modelling conventions:
* A dataframe cell is `Option Val`: `none` is a missing value (`NaN`/`None`),
  `Val.num` a numeric value (exact rational in place of the source's floats),
  `Val.str` a text value.
* A pandas `Series` is a list of cells together with its dtype tag
  (`dtypeNumeric`), which pandas fixes when the frame is loaded.
* `astype(str)` is `valToString`; `dropna` is `List.filterMap id`;
  `nunique(dropna=True)` is the length of `List.dedup` of the non-null values.
* Regular-expression checks from the source are modelled as decidable
  character-list predicates with the same match semantics.
* Random sampling (`Series.sample`) draws the whole column in random order
  whenever the column is no longer than the sample bound; the profiler only
  feeds samples into order-insensitive computations (set accumulation,
  `all`-style checks), so it is modelled as the identity on the value list.
  The claims below only quantify over columns within the sample bound.
-/

/-- A non-missing cell value: numeric (modelled exactly as `ℚ`) or text. -/
inductive Val where
  | num (q : ℚ)
  | str (s : String)
deriving DecidableEq

/-- A dataframe cell: `none` is a missing value. -/
abbrev Cell := Option Val

/-- A pandas series: cells plus the dtype tag assigned at load time. -/
structure Series where
  dtypeNumeric : Bool
  cells : List Cell
deriving DecidableEq

/-- Python `str()` of a cell value (`astype(str)` applied pointwise).
Numeric values only ever appear integral in the claims; an integral rational
prints as its integer part, like Python `str(int)`. -/
def valToString : Val → String
  | Val.num q => if q.den = 1 then toString q.num else toString q
  | Val.str s => s

/-- `series.dropna()`: the non-missing values, in order. -/
def dropnaVals (cells : List Cell) : List Val :=
  cells.filterMap id

/-- `series.dropna().astype(str)`: the non-missing values, stringified. -/
def dropnaStr (cells : List Cell) : List String :=
  (dropnaVals cells).map valToString

/-- `int(series.isna().sum())`: the number of missing cells. -/
def countNulls (cells : List Cell) : Nat :=
  (cells.filter (fun c => c.isNone)).length

/-- `int(series.nunique(dropna=True))`: the number of distinct non-null values. -/
def distinctVals (cells : List Cell) : Nat :=
  (dropnaVals cells).dedup.length

/-- `re.fullmatch(r'\d+', v)`: a non-empty all-digit string. -/
def isDigits (v : String) : Bool :=
  !v.data.isEmpty && v.data.all Char.isDigit

/-- `re.fullmatch(r'[A-Za-z ]+', v)`: non-empty, letters and spaces only. -/
def isAlphaSpaces (v : String) : Bool :=
  !v.data.isEmpty && v.data.all (fun c => c.isAlpha || c == ' ')

/-- `re.search(r'@', v)`: the string contains an `@`. -/
def hasAtSign (v : String) : Bool :=
  v.data.any (fun c => c == '@')

/-- A date separator as accepted by the source's date regex: dash or slash. -/
def isSep (c : Char) : Bool :=
  c == '-' || c == '/'

/-- One alternative of the source's date regex (2-4 digits, a dash-or-slash
separator, 1-2 digits, a separator, 1-2 digits) anchored at the start of
`cs`, with the three repetition counts fixed. -/
def matchesDMY (cs : List Char) (k1 k2 k3 : Nat) : Bool :=
  decide ((cs.take k1).length = k1) && (cs.take k1).all Char.isDigit &&
    match cs.drop k1 with
    | s1 :: rest2 =>
      isSep s1 && decide ((rest2.take k2).length = k2) &&
        (rest2.take k2).all Char.isDigit &&
        (match rest2.drop k2 with
         | s2 :: rest3 =>
           isSep s2 && decide ((rest3.take k3).length = k3) &&
             (rest3.take k3).all Char.isDigit
         | [] => false)
    | [] => false

/-- The date regex matches at the start of `cs` (some repetition counts work). -/
def dateAt (cs : List Char) : Bool :=
  [2, 3, 4].any fun k1 => [1, 2].any fun k2 => [1, 2].any fun k3 =>
    matchesDMY cs k1 k2 k3

/-- The `re.search` of the source's date regex (see `matchesDMY`): the date
pattern matches at some position of the string. -/
def dateSearch : List Char → Bool
  | [] => dateAt []
  | c :: cs => dateAt (c :: cs) || dateSearch cs

/-- String form of the date-substring search. -/
def dateLikeStr (v : String) : Bool :=
  dateSearch v.data

/-- `re.fullmatch(r'\+?\d[\d\-\s]{6,}', v)`: optional `+`, one digit, then at
least six characters drawn from digits, `-` and whitespace. -/
def phoneLike (v : String) : Bool :=
  let cs := match v.data with
    | '+' :: rest => rest
    | cs => cs
  match cs with
  | c :: rest =>
    c.isDigit && decide (6 ≤ rest.length) &&
      rest.all (fun ch => ch.isDigit || ch == '-' || ch.isWhitespace)
  | [] => false

/-- Minimum of a list of naturals (`0` on the empty list, which never occurs
at call sites: every caller guards on non-emptiness). -/
def natMinList : List Nat → Nat
  | [] => 0
  | x :: xs => xs.foldl Nat.min x

/-- Maximum of a list of naturals (`0` on the empty list). -/
def natMaxList : List Nat → Nat
  | [] => 0
  | x :: xs => xs.foldl Nat.max x

/-- `lengths.mode().iloc[0]`: pandas returns the modes sorted ascending, so
`iloc[0]` is the smallest value attaining the maximal multiplicity. -/
def modeMin (l : List Nat) : Nat :=
  let maxCnt := natMaxList (l.map (fun v => l.count v))
  natMinList (l.dedup.filter (fun v => l.count v = maxCnt))

/-- The `{'min':…, 'max':…, 'typical':…}` dictionary of `infer_length_rules`;
`minLen`/`maxLen`/`typicalLen` model the keys `min`/`max`/`typical`. -/
structure LengthStats where
  minLen : Nat
  maxLen : Nat
  typicalLen : Nat
deriving DecidableEq

/-- `infer_length_rules(series)`: string-length statistics of the non-null
values, `None` when there are none. -/
def infer_length_rules (cells : List Cell) : Option LengthStats :=
  match dropnaStr cells with
  | [] => none
  | v :: vs =>
    let ls := (v :: vs).map String.length
    some ⟨natMinList ls, natMaxList ls, modeMin ls⟩

/-- `is_numeric_only(series, threshold)`: at least `threshold` of the non-null
stringified values fully match `\d+` (`False` on an empty series). -/
def is_numeric_only (cells : List Cell) (threshold : ℚ) : Bool :=
  let s := dropnaStr cells
  if s.isEmpty then false
  else decide (threshold ≤ ((s.filter isDigits).length : ℚ) / (s.length : ℚ))

/-- `is_alpha_only(series, threshold)`: at least `threshold` of the non-null
stringified values fully match `[A-Za-z ]+` (`False` on an empty series). -/
def is_alpha_only (cells : List Cell) (threshold : ℚ) : Bool :=
  let s := dropnaStr cells
  if s.isEmpty then false
  else decide (threshold ≤ ((s.filter isAlphaSpaces).length : ℚ) / (s.length : ℚ))

/-- The guarded distinct ratio `nunique / max(1, total)` used by the profiler
and by both rule generators. -/
def distinctRatio (distinct total : Nat) : ℚ :=
  (distinct : ℚ) / ((max 1 total : Nat) : ℚ)

def nullsNotAllowedRule : String := "Nulls are NOT allowed."

def nullsAllowedRule : String := "Nulls are allowed."

def onlyNumericRule : String := "Only numeric characters allowed."

/-- `f"Character length between {lengths['min']} and {lengths['max']}."` -/
def charLenRule (a b : Nat) : String :=
  "Character length between " ++ (toString a ++ (" and " ++ (toString b ++ ".")))

def noSpecialRule : String := "No special characters or alphabets allowed."

def alphaOnlyRule : String := "Alphabetic characters allowed only."

def emailRule : String := "Email format expected (contains '@')."

def phoneRule : String := "Phone number like pattern detected."

/-- `f"Recommended character length between {lengths['min']} and {lengths['max']}."` -/
def recLenRule (a b : Nat) : String :=
  "Recommended character length between " ++
    (toString a ++ (" and " ++ (toString b ++ ".")))

def avoidSpecialRule : String := "Avoid special characters unless required (/, -, : etc)."

def uniqueRule : String := "Values are unique — consider as candidate key."

def lowCardRule : String :=
  "Low cardinality — likely categorical; map to lookup table or enumerations."

/-- The nullability rule of `generate_pbl_for_column` (its first append). -/
def pblNullBlock (cells : List Cell) : List String :=
  if 0 < countNulls cells then [nullsAllowedRule] else [nullsNotAllowedRule]

/-- The character-class/format/length rules of `generate_pbl_for_column`
(the `is_numeric_only` / `is_alpha_only` / fallback branch). -/
def pblClassBlock (cells : List Cell) : List String :=
  if is_numeric_only cells (98 / 100) then
    [onlyNumericRule] ++
      (match infer_length_rules cells with
       | some L => [charLenRule L.minLen L.maxLen]
       | none => []) ++
      [noSpecialRule]
  else if is_alpha_only cells (98 / 100) then
    [alphaOnlyRule]
  else
    let sample := (dropnaStr cells).take 50
    (if sample.any hasAtSign then [emailRule] else []) ++
      (if sample.any phoneLike then [phoneRule] else []) ++
      (match infer_length_rules cells with
       | some L => [recLenRule L.minLen L.maxLen]
       | none => []) ++
      [avoidSpecialRule]

/-- The uniqueness/cardinality rule of `generate_pbl_for_column` (its final
`nunique` comparison and guarded distinct ratio). -/
def pblUniqBlock (cells : List Cell) : List String :=
  if distinctVals cells = (dropnaVals cells).length then [uniqueRule]
  else if distinctRatio (distinctVals cells) cells.length < 2 / 100 then [lowCardRule]
  else []

/-- `generate_pbl_for_column(series)`: the single-dataset rule generator,
appending its three rule groups in source order. -/
def generate_pbl_for_column (cells : List Cell) : List String :=
  pblNullBlock cells ++ pblClassBlock cells ++ pblUniqBlock cells

/-- `detect_pattern(series)`: classify the non-null stringified values into
structural categories and return the sorted, comma-joined label set.
The four possible labels are listed here in their lexicographic order
(`"alpha" < "date-like" < "email-like" < "numeric"`), so the concatenation
below equals Python's `", ".join(sorted(patterns))`.  The random sample of up
to 500 values is modelled as the full value list: for columns of at most 500
rows the sample is the whole column in random order, and the accumulated
category set does not depend on the order. -/
def detect_pattern (cells : List Cell) : String :=
  let s := dropnaStr cells
  if s.isEmpty then "empty"
  else
    let pats :=
      (if s.any isAlphaSpaces then ["alpha"] else []) ++
        (if s.any dateLikeStr then ["date-like"] else []) ++
        (if s.any hasAtSign then ["email-like"] else []) ++
        (if s.any isDigits then ["numeric"] else [])
    if pats.isEmpty then "mixed" else String.intercalate ", " pats

/-- The numeric value of a digit list read in base 10. -/
def digitsToNat (cs : List Char) : Nat :=
  cs.foldl (fun a c => a * 10 + (c.toNat - 48)) 0

/-- `pd.to_numeric(…, errors='coerce')` on a single string, restricted to the
numeric literal forms the claims exercise: an optional sign, an integer part
and an optional decimal part.  Every other string coerces to missing. -/
def parseNumeric? (s : String) : Option ℚ :=
  let p :=
    match s.data with
    | '-' :: rest => (true, rest)
    | '+' :: rest => (false, rest)
    | cs => (false, cs)
  let ip := p.2.takeWhile Char.isDigit
  let rest := p.2.dropWhile Char.isDigit
  let signed := fun (v : ℚ) => some (if p.1 then -v else v)
  match rest with
  | [] => if ip.isEmpty then none else signed (digitsToNat ip : ℚ)
  | '.' :: frac =>
    if frac.all Char.isDigit && (!ip.isEmpty || !frac.isEmpty) then
      signed ((digitsToNat ip : ℚ) + (digitsToNat frac : ℚ) / ((10 : ℚ) ^ frac.length))
    else none
  | _ => none

/-- Numeric coercion of one cell: missing stays missing, numbers stay
themselves, strings go through `parseNumeric?`. -/
def cellToNum : Cell → Option ℚ
  | none => none
  | some (Val.num q) => some q
  | some (Val.str s) => parseNumeric? s

/-- `pd.to_numeric(series, errors='coerce').dropna()`. -/
def coerceDrop (cells : List Cell) : List ℚ :=
  cells.filterMap cellToNum

/-- `series.quantile(q)` with the default linear interpolation: on the sorted
values `x₀ … x₍ₙ₋₁₎`, position `h = (n-1)·q`, result
`x₍⌊h⌋₎ + (h mod 1)·(x₍⌊h⌋₊₁₎ - x₍⌊h⌋₎)`.  Callers guarantee a non-empty list. -/
def quantileLinear (xs : List ℚ) (q : ℚ) : ℚ :=
  let s := xs.insertionSort (fun a b => a ≤ b)
  let n := s.length
  let h := ((n : ℚ) - 1) * q
  let i := (Int.floor h).toNat
  let frac := h - Int.floor h
  let x0 := s.getD i 0
  let x1 := s.getD (i + 1) x0
  x0 + frac * (x1 - x0)

/-- The dictionary returned by `compute_outliers`: `lower?`/`upper?` model the
`'lower'`/`'upper'` keys, absent in the `method:'none'` case. -/
structure OutlierSummary where
  method : String
  count : Nat
  lower? : Option ℚ
  upper? : Option ℚ
deriving DecidableEq

/-- `compute_outliers(series)`: coerce to numeric, drop missing; empty →
`{method:'none', count:0}`; otherwise IQR fences at 1.5·IQR and the count of
values strictly outside them. -/
def compute_outliers (cells : List Cell) : OutlierSummary :=
  let s := coerceDrop cells
  if s.isEmpty then ⟨"none", 0, none, none⟩
  else
    let q1 := quantileLinear s (1 / 4)
    let q3 := quantileLinear s (3 / 4)
    let iqr := q3 - q1
    let lower := q1 - 3 / 2 * iqr
    let upper := q3 + 3 / 2 * iqr
    ⟨"IQR", (s.filter fun x => decide (x < lower) || decide (upper < x)).length,
      some lower, some upper⟩

/-- The exact natural square root, when it exists. -/
def natSqrtExact? (n : Nat) : Option Nat :=
  (List.range (n + 1)).find? fun k => k * k = n

/-- The exact rational square root, when it exists (a reduced rational is a
square iff its numerator and denominator are). -/
def ratSqrt? (q : ℚ) : Option ℚ :=
  if q < 0 then none
  else
    match natSqrtExact? q.num.toNat, natSqrtExact? q.den with
    | some n, some d => some ((n : ℚ) / (d : ℚ))
    | _, _ => none

/-- Pearson correlation of paired observations,
`cov / sqrt(var·var)` (the 1/(n-1) normalisations cancel).  The source
computes it in floating point; it is modelled exactly over `ℚ`, with `none`
standing for pandas' `NaN` (no observations or zero variance) and also when
the correlation is irrational, which no claim exercises. -/
def pearson? (ps : List (ℚ × ℚ)) : Option ℚ :=
  match ps with
  | [] => none
  | _ =>
    let n : ℚ := ps.length
    let mx := (ps.map Prod.fst).sum / n
    let my := (ps.map Prod.snd).sum / n
    let cov := (ps.map fun p => (p.1 - mx) * (p.2 - my)).sum
    let vx := (ps.map fun p => (p.1 - mx) * (p.1 - mx)).sum
    let vy := (ps.map fun p => (p.2 - my) * (p.2 - my)).sum
    match ratSqrt? (vx * vy) with
    | some s => if s = 0 then none else some (cov / s)
    | none => none

/-- `round(3)` on one correlation entry.  `round` is round-half-up on exact
rationals where pandas rounds the nearest double half-to-even; the claims only
evaluate it away from ties. -/
def round3 (q : ℚ) : ℚ :=
  ((round (q * 1000) : ℤ) : ℚ) / 1000

/-- Pairwise-complete observations of two columns, as pandas `corr` uses. -/
def alignNum (xs ys : List Cell) : List (ℚ × ℚ) :=
  (xs.zip ys).filterMap fun p =>
    match cellToNum p.1, cellToNum p.2 with
    | some a, some b => some (a, b)
    | _, _ => none

/-- Minimum of a list of rationals (`0` on the empty list; callers guard). -/
def ratMinList : List ℚ → ℚ
  | [] => 0
  | x :: xs => xs.foldl min x

/-- Maximum of a list of rationals (`0` on the empty list; callers guard). -/
def ratMaxList : List ℚ → ℚ
  | [] => 0
  | x :: xs => xs.foldl max x

/-- Sample variance with pandas' default `ddof=1`. -/
def sampleVariance (nums : List ℚ) : ℚ :=
  let n : ℚ := nums.length
  let m := nums.sum / n
  (nums.map fun x => (x - m) * (x - m)).sum / (n - 1)

/-- The shared `f"Column '{col}' "` prefix of the profiler's insight strings. -/
def colPrefix (col : String) : String :=
  ("Column '" ++ col) ++ "' "

/-- `f"Column '{col}' has {count} potential outliers (IQR)."` -/
def outlierInsight (col : String) (c : Nat) : String :=
  colPrefix col ++ ("has " ++ (toString c ++ " potential outliers (IQR)."))

/-- `f"Column '{col}' has {nulls} nulls."` -/
def nullsInsight (col : String) (n : Nat) : String :=
  colPrefix col ++ ("has " ++ (toString n ++ " nulls."))

/-- `f"Column '{col}' appears low-cardinality ({distinct} unique). may be categorical."` -/
def lowCardInsight (col : String) (d : Nat) : String :=
  colPrefix col ++
    ("appears low-cardinality (" ++ (toString d ++ " unique). may be categorical."))

/-- The per-column `col_stats` record.  `dtypeNumeric` models the
`pd.api.types.is_numeric_dtype` test on the column's dtype tag; the five
optional numeric statistics and the outlier summary are present exactly on the
numeric branch, as in the source where the keys are added to the dict only
then.  `std?` uses the exact rational square root of the `ddof=1` variance and
is `none` when pandas would store NaN (fewer than two values); no claim reads
it. -/
structure ColStats where
  dtypeNumeric : Bool
  count : Nat
  nulls : Nat
  distinct : Nat
  sample_values : List String
  pattern : String
  min? : Option ℚ
  max? : Option ℚ
  mean? : Option ℚ
  median? : Option ℚ
  std? : Option ℚ
  outliers? : Option OutlierSummary
deriving DecidableEq

/-- The per-column body of the `profile_dataframe` loop: the column's stats
record and the insight strings it appends. -/
def profileColumn (name : String) (s : Series) : ColStats × List String :=
  let cells := s.cells
  let cnt := cells.length
  let nulls := countNulls cells
  let distinct := distinctVals cells
  let sample := (dropnaStr cells).take 5
  let pat := detect_pattern cells
  if s.dtypeNumeric then
    let nums := coerceDrop cells
    let out := compute_outliers cells
    let stats : ColStats :=
      { dtypeNumeric := true, count := cnt, nulls := nulls, distinct := distinct
        sample_values := sample, pattern := pat
        min? := if 0 < nums.length then some (ratMinList nums) else none
        max? := if 0 < nums.length then some (ratMaxList nums) else none
        mean? := if 0 < nums.length then some (nums.sum / (nums.length : ℚ)) else none
        median? := if 0 < nums.length then some (quantileLinear nums (1 / 2)) else none
        std? := if 2 ≤ nums.length then ratSqrt? (sampleVariance nums) else none
        outliers? := some out }
    (stats, if 0 < out.count then [outlierInsight name out.count] else [])
  else
    let stats : ColStats :=
      { dtypeNumeric := false, count := cnt, nulls := nulls, distinct := distinct
        sample_values := sample, pattern := pat
        min? := none, max? := none, mean? := none, median? := none, std? := none
        outliers? := none }
    (stats,
      (if 0 < nulls then [nullsInsight name nulls] else []) ++
        (if distinctRatio distinct cnt < 2 / 100 then [lowCardInsight name distinct] else []))

/-- The aggregate returned by `profile_dataframe`.  `anomalyScoresPresent`
models only the presence of the isolation-forest score series (`None` iff no
numeric columns): the scores themselves come from a randomized ensemble and no
claim concerns their values. -/
structure DatasetProfile where
  overview : List (String × ColStats)
  correlations : Option (List (String × List (String × Option ℚ)))
  anomalyScoresPresent : Bool
  top_insights : List String
deriving DecidableEq

/-- `df.select_dtypes(include=[np.number])`: the numeric-dtype columns. -/
def numericCols (df : List (String × Series)) : List (String × Series) :=
  df.filter fun p => p.2.dtypeNumeric

/-- `numeric_df.corr().round(3)`: each entry the rounded Pearson correlation
over pairwise-complete observations. -/
def corrMatrix (cols : List (String × Series)) : List (String × List (String × Option ℚ)) :=
  cols.map fun a =>
    (a.1, cols.map fun b => (b.1, (pearson? (alignNum a.2.cells b.2.cells)).map round3))

/-- `profile_dataframe(df)`. -/
def profile_dataframe (df : List (String × Series)) : DatasetProfile :=
  { overview := df.map fun p => (p.1, (profileColumn p.1 p.2).1)
    correlations :=
      if 2 ≤ (numericCols df).length then some (corrMatrix (numericCols df)) else none
    anomalyScoresPresent := decide (1 ≤ (numericCols df).length)
    top_insights := df.foldr (fun p acc => (profileColumn p.1 p.2).2 ++ acc) [] }

/-- Python `f"{x:.2f}"` on the overlap fraction.  Double rounding is
round-half-even; it is modelled as round-half-up on the exact rational, and
the claims only evaluate it away from ties. -/
def fmt2 (q : ℚ) : String :=
  let m : ℤ := round (q * 100)
  let sign := if m < 0 then "-" else ""
  let n := m.natAbs
  let fp := n % 100
  let fpStr := if fp < 10 then "0" ++ toString fp else toString fp
  sign ++ (toString (n / 100) ++ ("." ++ fpStr))

def nullsNotAllowedRefRule : String := "Nulls are NOT allowed (reference has no nulls)."

def nullsPresentRefRule : String := "Nulls are present in this dataset but reference expects none."

def nullsAllowedRefRule : String := "Nulls allowed (reference permits nulls)."

def refKeyRule : String := "Reference values are unique — consider as reference key."

/-- `f"Allowed values derived from reference (enumeration of {len} values)."` -/
def enumRuleStr (k : Nat) : String :=
  "Allowed values derived from reference (enumeration of " ++ (toString k ++ " values).")

/-- `"Allowed values (sample): " + ", ".join(map(str, distinct_ref[:20]))` -/
def sampleRuleStr (xs : List String) : String :=
  "Allowed values (sample): " ++ String.intercalate ", " xs

/-- `f"Reference provides a large allowed list ({len} values). Use lookup mapping."` -/
def bigListRuleStr (k : Nat) : String :=
  "Reference provides a large allowed list (" ++ (toString k ++ " values). Use lookup mapping.")

/-- `f"Fraction of target values present in reference: {overlap_frac:.2f}"` -/
def fracRuleStr (q : ℚ) : String :=
  "Fraction of target values present in reference: " ++ fmt2 q

/-- `f"{overlap_frac:.2f} fraction of target values match reference values (partial overlap)."` -/
def partialRuleStr (q : ℚ) : String :=
  fmt2 q ++ " fraction of target values match reference values (partial overlap)."

def noOverlapRule : String :=
  "No meaningful overlap with reference values; reference may be different domain or mismatch."

/-- `f"Numeric range observed in target: min={tnum.min()}, max={tnum.max()}."` -/
def tgtRangeRule (a b : ℚ) : String :=
  "Numeric range observed in target: min=" ++ (toString a ++ (", max=" ++ (toString b ++ ".")))

/-- `f"Reference numeric range: min={rnum.min()}, max={rnum.max()}."` -/
def refRangeRule (a b : ℚ) : String :=
  "Reference numeric range: min=" ++ (toString a ++ (", max=" ++ (toString b ++ ".")))

/-- `f"Suggested pattern (regex): `{pattern}`"` -/
def suggPatternRule (p : String) : String :=
  "Suggested pattern (regex): `" ++ (p ++ "`")

/-- `f"Reference distinct count: {r.nunique(dropna=True)}"` -/
def refDistinctRule (n : Nat) : String :=
  "Reference distinct count: " ++ toString n

/-- `f"Target distinct count: {t.nunique(dropna=True)}"` -/
def tgtDistinctRule (n : Nat) : String :=
  "Target distinct count: " ++ toString n

def tgtUniqueRule : String := "Values in this dataset are unique — candidate key."

def lowTgtRule : String := "Low cardinality in target — likely categorical."

/-- The source's email regex suggestion (written with escaped braces). -/
def emailRegexStr : String := "^[\\w\\.-]+@[\\w\\.-]+\\.\\w\x7b2,\x7d$"

/-- The source's date regex suggestion (written with escaped braces). -/
def dateRegexStr : String := "^\\d\x7b2,4\x7d[-/]\\d\x7b1,2\x7d[-/]\\d\x7b1,2\x7d$"

/-- Code-point lexicographic string comparison, Python's `str` order. -/
def charListLe : List Char → List Char → Bool
  | [], _ => true
  | _ :: _, [] => false
  | a :: as, b :: bs => if a < b then true else if b < a then false else charListLe as bs

/-- Python `sorted(list(r_vals))` on distinct stringified values: both Python
and Lean order strings lexicographically by code point. -/
def sortStrings (l : List String) : List String :=
  l.insertionSort fun a b => charListLe a.data b.data = true

/-- `t_vals`-in-`r_vals` overlap fraction of `derive_rules_from_reference`,
including the source's explicit empty guard and the `max(1, …)` denominator. -/
def overlapFrac (t r : List String) : ℚ :=
  let tv := t.dedup
  let rv := r.dedup
  if tv.length = 0 then 0
  else ((tv.filter fun v => rv.contains v).length : ℚ) / ((max 1 tv.length : Nat) : ℚ)

/-- `_suggest_regex_from_sample(sample_values)`.  Note the source's `if s`
guards: an all-empty-string sample vacuously passes the email `all(...)`. -/
def suggestRegexFromSample (sampleValues : List String) : Option String :=
  let sample := sampleValues.take 100
  if sample.isEmpty then none
  else if sample.all isDigits then some "^\\d+$"
  else if sample.all (fun s => s.isEmpty || hasAtSign s) then some emailRegexStr
  else if sample.all (fun s => s.isEmpty || dateLikeStr s) then some dateRegexStr
  else
    let ls := sample.map String.length
    some ("^." ++ ("\x7b" ++ (toString (natMinList ls) ++ ("," ++ (toString (natMaxList ls) ++ "\x7d$")))))

/-- `isna().sum()` of an already null-dropped, stringified series: such a
series has no missing values, so the sum is always `0`.  (The source
re-checks nulls on the post-drop series — the latent defect the spec's §9
notes.) -/
def strSeriesNullCount (_l : List String) : Nat := 0

/-- `pd.api.types.is_numeric_dtype` on a series produced by
`dropna().astype(str)`: stringifying always yields object dtype, never a
numeric one, so the test is constantly `false` and the numeric-range branch
of `derive_rules_from_reference` is unreachable. -/
def stringifiedIsNumericDtype (_l : List String) : Bool := false

/-- The nullability cross-check of `derive_rules_from_reference` (its first
append), over the already null-dropped stringified series `t` and `r`. -/
def refNullBlock (t r : List String) : List String :=
  if strSeriesNullCount r = 0 then
    if strSeriesNullCount t = 0 then [nullsNotAllowedRefRule] else [nullsPresentRefRule]
  else [nullsAllowedRefRule]

/-- The reference-key check of `derive_rules_from_reference`. -/
def refKeyBlock (r : List String) : List String :=
  if r.dedup.length = r.length then [refKeyRule] else []

/-- The enumeration-inference rules of `derive_rules_from_reference`. -/
def refEnumBlock (t r : List String) (enum_threshold : ℚ) : List String :=
  if 0 < r.length ∧ 0 < t.length then
    let ov := overlapFrac t r
    if enum_threshold ≤ ov then
      let distinctRef := (sortStrings r.dedup).take 200
      (if distinctRef.length ≤ 50 then
        [enumRuleStr distinctRef.length, sampleRuleStr (distinctRef.take 20)]
      else [bigListRuleStr distinctRef.length]) ++ [fracRuleStr ov]
    else if 0 < ov then [partialRuleStr ov] else [noOverlapRule]
  else []

/-- The numeric-range rules of `derive_rules_from_reference`, guarded by the
dtype test on the stringified series (see `stringifiedIsNumericDtype`). -/
def refNumBlock (t r : List String) : List String :=
  if stringifiedIsNumericDtype r && stringifiedIsNumericDtype t then
    let tnum := t.filterMap parseNumeric?
    let rnum := r.filterMap parseNumeric?
    (if !tnum.isEmpty then [tgtRangeRule (ratMinList tnum) (ratMaxList tnum)] else []) ++
      (if !rnum.isEmpty then [refRangeRule (ratMinList rnum) (ratMaxList rnum)] else [])
  else []

/-- The regex-suggestion rule of `derive_rules_from_reference`. -/
def refPatternBlock (t r : List String) : List String :=
  match suggestRegexFromSample (if r.isEmpty then t else r) with
  | some p => [suggPatternRule p]
  | none => []

/-- The distinct-count informational rules of `derive_rules_from_reference`. -/
def refCountBlock (t r : List String) : List String :=
  (if 0 < r.length then [refDistinctRule r.dedup.length] else []) ++
    (if 0 < t.length then [tgtDistinctRule t.dedup.length] else [])

/-- The target uniqueness/cardinality rule of `derive_rules_from_reference`
(its final `nunique` comparison and guarded distinct ratio). -/
def refUniqBlock (t : List String) : List String :=
  if t.dedup.length = t.length then [tgtUniqueRule]
  else if distinctRatio t.dedup.length t.length < 2 / 100 then [lowTgtRule]
  else []

/-- `derive_rules_from_reference(target, reference, enum_threshold, …)`,
appending its rule groups in source order.  The reference/target samples
fed to the regex suggester are random permutations of the (≤ `sample_size`)
values; they are modelled as the value lists themselves, which the claims'
inputs (well within the bound) make faithful up to the order-insensitive
`all`-checks applied to them. -/
def derive_rules_from_reference (target reference : List Cell)
    (enum_threshold : ℚ) : List String :=
  let t := dropnaStr target
  let r := dropnaStr reference
  refNullBlock t r ++ refKeyBlock r ++ refEnumBlock t r enum_threshold ++
    refNumBlock t r ++ refPatternBlock t r ++ refCountBlock t r ++ refUniqBlock t

/-! ## Statement-side definitions

The following definitions render the spec's wording (for comparison against
the source-side functions above) and the concrete columns of the spec's
scenario claims. -/

/-- The four structural category labels, in lexicographic order. -/
def categoryNames : List String := ["alpha", "date-like", "email-like", "numeric"]

/-- Whether a value matches a named category, following the spec's table:
`numeric`, `alpha`, `email-like`, `date-like`. -/
def matchesCategory (n : String) (v : String) : Bool :=
  match n with
  | "numeric" => isDigits v
  | "alpha" => isAlphaSpaces v
  | "email-like" => hasAtSign v
  | "date-like" => dateLikeStr v
  | _ => false

/-- The spec's "set of matched categories": the category labels, in their
lexicographic order, that some (sampled) value matches. -/
def matchedCategories (cells : List Cell) : List String :=
  categoryNames.filter fun n => (dropnaStr cells).any fun v => matchesCategory n v

/-- The column `["1","2","3", None]` of the spec's rule-generator scenario. -/
def scenarioNumericCol : List Cell :=
  [some (Val.str "1"), some (Val.str "2"), some (Val.str "3"), none]

/-- An all-digit-strings demo column. -/
def digitsDemoCol : List Cell := [some (Val.str "12"), some (Val.str "007"), none]

/-- A numeric demo column with one IQR outlier. -/
def outlierDemoCol : List Cell :=
  [some (Val.num 1), some (Val.num 2), some (Val.num 3), some (Val.num 4), some (Val.num 100)]

/-- The target column `["A","B","C"]` of the spec's reference scenario. -/
def demoTarget : List Cell := [some (Val.str "A"), some (Val.str "B"), some (Val.str "C")]

/-- The reference column `["A","B","C","D","E"]` of the spec's reference scenario. -/
def demoReference : List Cell :=
  [some (Val.str "A"), some (Val.str "B"), some (Val.str "C"),
    some (Val.str "D"), some (Val.str "E")]

/-- A target column with no nulls, for exercising the reference null check. -/
def nullDemoTarget : List Cell := [some (Val.str "A")]

/-- A reference column that does contain a null. -/
def nullDemoReference : List Cell := [none, some (Val.str "A")]

/-- A numeric-coercible target column (numeric dtype in the frame). -/
def numDemoTarget : List Cell := [some (Val.num 1), some (Val.num 2)]

/-- A numeric-coercible reference column. -/
def numDemoReference : List Cell := [some (Val.num 3), some (Val.num 4)]

/-- The two-numeric-column frame `x=[1,2,3]`, `y=[3,2,1]` of the spec's
correlation scenario. -/
def corrDemoDf : List (String × Series) :=
  [("x", ⟨true, [some (Val.num 1), some (Val.num 2), some (Val.num 3)]⟩),
    ("y", ⟨true, [some (Val.num 3), some (Val.num 2), some (Val.num 1)]⟩)]

/-! ## Helper lemmas -/

theorem countNulls_add_nonNull (cells : List Cell) :
    countNulls cells + (dropnaVals cells).length = cells.length := by
  unfold countNulls dropnaVals
  induction cells with
  | nil => rfl
  | cons c rest ih =>
    cases c <;> simp [List.filter_cons, List.filterMap_cons] <;> omega

theorem string_head_append (lit x : String) (c : Char) (h : lit.data.head? = some c) :
    (lit ++ x).data.head? = some c := by
  rw [String.data_append]
  cases hd : lit.data with
  | nil => simp [hd] at h
  | cons a as =>
    rw [hd] at h
    simpa using h

theorem string_ne_of_head {a b : String} {c d : Char} (ha : a.data.head? = some c)
    (hb : b.data.head? = some d) (hcd : c ≠ d) : a ≠ b := by
  intro h
  subst h
  rw [ha] at hb
  exact hcd (Option.some.inj hb)

theorem string_append_right_ne {A B C : String} (h : B ≠ C) : A ++ B ≠ A ++ C := by
  intro he
  refine h (String.ext ?_)
  have hd := congrArg String.data he
  rw [String.data_append, String.data_append] at hd
  exact List.append_cancel_left hd

theorem string_ne_of_length {a b : String} (h : a.length ≠ b.length) : a ≠ b :=
  fun he => h (congrArg String.length he)

theorem charLenRule_head (a b : Nat) : (charLenRule a b).data.head? = some 'C' :=
  string_head_append _ _ _ (by decide)

theorem recLenRule_head (a b : Nat) : (recLenRule a b).data.head? = some 'R' :=
  string_head_append _ _ _ (by decide)

theorem enumRuleStr_head (k : Nat) : (enumRuleStr k).data.head? = some 'A' :=
  string_head_append _ _ _ (by decide)

theorem sampleRuleStr_head (xs : List String) : (sampleRuleStr xs).data.head? = some 'A' :=
  string_head_append _ _ _ (by decide)

theorem bigListRuleStr_head (k : Nat) : (bigListRuleStr k).data.head? = some 'R' :=
  string_head_append _ _ _ (by decide)

theorem fracRuleStr_head (q : ℚ) : (fracRuleStr q).data.head? = some 'F' :=
  string_head_append _ _ _ (by decide)

theorem suggPatternRule_head (p : String) : (suggPatternRule p).data.head? = some 'S' :=
  string_head_append _ _ _ (by decide)

theorem refDistinctRule_head (n : Nat) : (refDistinctRule n).data.head? = some 'R' :=
  string_head_append _ _ _ (by decide)

theorem tgtDistinctRule_head (n : Nat) : (tgtDistinctRule n).data.head? = some 'T' :=
  string_head_append _ _ _ (by decide)

theorem partialRuleStr_ne (q : ℚ) (s : String) (h : s.length < 68) : partialRuleStr q ≠ s := by
  apply string_ne_of_length
  have hc : (" fraction of target values match reference values (partial overlap)." :
      String).length = 68 := by decide
  have h1 : (partialRuleStr q).length = (fmt2 q).length + 68 := by
    unfold partialRuleStr
    rw [String.length_append, hc]
  omega

theorem refNullBlock_eq (t r : List String) : refNullBlock t r = [nullsNotAllowedRefRule] := by
  simp [refNullBlock, strSeriesNullCount]

theorem refNumBlock_eq (t r : List String) : refNumBlock t r = [] := by
  simp [refNumBlock, stringifiedIsNumericDtype]

theorem mem_refKeyBlock {s : String} {r : List String} (h : s ∈ refKeyBlock r) :
    s = refKeyRule := by
  unfold refKeyBlock at h
  split at h <;> simp_all

theorem mem_refEnumBlock {s : String} {t r : List String} {thr : ℚ}
    (h : s ∈ refEnumBlock t r thr) :
    (∃ k, s = enumRuleStr k) ∨ (∃ xs, s = sampleRuleStr xs) ∨ (∃ k, s = bigListRuleStr k) ∨
      (∃ q, s = fracRuleStr q) ∨ (∃ q, s = partialRuleStr q) ∨ s = noOverlapRule := by
  simp only [refEnumBlock] at h
  split at h
  · split at h
    · rw [List.mem_append] at h
      rcases h with h | h
      · split at h
        · simp only [List.mem_cons, List.mem_singleton, List.not_mem_nil, or_false] at h
          rcases h with h | h
          · exact Or.inl ⟨_, h⟩
          · exact Or.inr (Or.inl ⟨_, h⟩)
        · simp only [List.mem_singleton] at h
          exact Or.inr (Or.inr (Or.inl ⟨_, h⟩))
      · simp only [List.mem_singleton] at h
        exact Or.inr (Or.inr (Or.inr (Or.inl ⟨_, h⟩)))
    · split at h
      · simp only [List.mem_singleton] at h
        exact Or.inr (Or.inr (Or.inr (Or.inr (Or.inl ⟨_, h⟩))))
      · simp only [List.mem_singleton] at h
        exact Or.inr (Or.inr (Or.inr (Or.inr (Or.inr h))))
  · simp at h

theorem mem_refPatternBlock {s : String} {t r : List String} (h : s ∈ refPatternBlock t r) :
    ∃ p, s = suggPatternRule p := by
  unfold refPatternBlock at h
  split at h
  · simp only [List.mem_singleton] at h
    exact ⟨_, h⟩
  · simp at h

theorem mem_refCountBlock {s : String} {t r : List String} (h : s ∈ refCountBlock t r) :
    (∃ n, s = refDistinctRule n) ∨ (∃ n, s = tgtDistinctRule n) := by
  unfold refCountBlock at h
  rw [List.mem_append] at h
  rcases h with h | h
  · split at h
    · simp only [List.mem_singleton] at h
      exact Or.inl ⟨_, h⟩
    · simp at h
  · split at h
    · simp only [List.mem_singleton] at h
      exact Or.inr ⟨_, h⟩
    · simp at h

theorem mem_refUniqBlock {s : String} {t : List String} (h : s ∈ refUniqBlock t) :
    s = tgtUniqueRule ∨ s = lowTgtRule := by
  unfold refUniqBlock at h
  split at h
  · simp only [List.mem_singleton] at h
    exact Or.inl h
  · split at h
    · simp only [List.mem_singleton] at h
      exact Or.inr h
    · simp at h

theorem lowTgt_mem_refUniqBlock_iff (t : List String) :
    lowTgtRule ∈ refUniqBlock t ↔
      (t.dedup.length ≠ t.length ∧ distinctRatio t.dedup.length t.length < 2 / 100) := by
  unfold refUniqBlock
  split_ifs with h1 h2
  · simp only [List.mem_singleton]
    constructor
    · intro h
      exact absurd h (by decide)
    · intro h
      exact absurd h1 h.1
  · simp [h1, h2]
  · simp [h1, h2]

theorem mem_pblNullBlock {s : String} {cells : List Cell} (h : s ∈ pblNullBlock cells) :
    s = nullsAllowedRule ∨ s = nullsNotAllowedRule := by
  unfold pblNullBlock at h
  split at h <;> simp_all

theorem mem_pblClassBlock {s : String} {cells : List Cell} (h : s ∈ pblClassBlock cells) :
    s = onlyNumericRule ∨ (∃ a b, s = charLenRule a b) ∨ s = noSpecialRule ∨
      s = alphaOnlyRule ∨ s = emailRule ∨ s = phoneRule ∨
      (∃ a b, s = recLenRule a b) ∨ s = avoidSpecialRule := by
  simp only [pblClassBlock] at h
  split at h
  · rw [List.mem_append, List.mem_append] at h
    rcases h with (h | h) | h
    · simp only [List.mem_singleton] at h
      exact Or.inl h
    · split at h
      · simp only [List.mem_singleton] at h
        exact Or.inr (Or.inl ⟨_, _, h⟩)
      · simp at h
    · simp only [List.mem_singleton] at h
      exact Or.inr (Or.inr (Or.inl h))
  · split at h
    · simp only [List.mem_singleton] at h
      exact Or.inr (Or.inr (Or.inr (Or.inl h)))
    · rw [List.mem_append, List.mem_append, List.mem_append] at h
      rcases h with ((h | h) | h) | h
      · split at h
        · simp only [List.mem_singleton] at h
          exact Or.inr (Or.inr (Or.inr (Or.inr (Or.inl h))))
        · simp at h
      · split at h
        · simp only [List.mem_singleton] at h
          exact Or.inr (Or.inr (Or.inr (Or.inr (Or.inr (Or.inl h)))))
        · simp at h
      · split at h
        · simp only [List.mem_singleton] at h
          exact Or.inr (Or.inr (Or.inr (Or.inr (Or.inr (Or.inr (Or.inl ⟨_, _, h⟩))))))
        · simp at h
      · simp only [List.mem_singleton] at h
        exact Or.inr (Or.inr (Or.inr (Or.inr (Or.inr (Or.inr (Or.inr h))))))

theorem lowCard_mem_pblUniqBlock_iff (cells : List Cell) :
    lowCardRule ∈ pblUniqBlock cells ↔
      (distinctVals cells ≠ (dropnaVals cells).length ∧
        distinctRatio (distinctVals cells) cells.length < 2 / 100) := by
  unfold pblUniqBlock
  split_ifs with h1 h2
  · simp only [List.mem_singleton]
    constructor
    · intro h
      exact absurd h (by decide)
    · intro h
      exact absurd h1 h.1
  · simp [h1, h2]
  · simp [h1, h2]

theorem string_ne_of_idx {a b : String} {n : Nat} {c d : Char}
    (ha : a.data[n]? = some c) (hb : b.data[n]? = some d) (hcd : c ≠ d) : a ≠ b := by
  intro h
  subst h
  rw [ha] at hb
  exact hcd (Option.some.inj hb)

theorem nullsAllowedRefRule_head : nullsAllowedRefRule.data.head? = some 'N' := by decide

/-! ## Claim theorems -/

section ClaimTheorems

attribute [local semireducible] Rat.mul Rat.inv Rat.add Rat.sub Rat.ofScientific

/-- C1: for every column of the input dataset, the profile record produced by
`profile_dataframe` satisfies `null_count + count_of_non_null = count`: the
overview rows are exactly the per-column stats records, and each such record
has `nulls` plus the number of non-missing cells equal to `count`, the
column's total length. -/
theorem claim_C1_null_count_invariant :
    (∀ df : List (String × Series),
      (profile_dataframe df).overview = df.map fun p => (p.1, (profileColumn p.1 p.2).1)) ∧
    (∀ (name : String) (s : Series),
      ((profileColumn name s).1).nulls + (dropnaVals s.cells).length =
        ((profileColumn name s).1).count) := by
  constructor
  · intro df
    rfl
  · intro name s
    have h := countNulls_add_nonNull s.cells
    unfold profileColumn
    split <;> simpa using h

/-- C7: for the column `["1","2","3", None]`, `generate_pbl_for_column` emits
"Nulls are allowed." first (one null is present), takes the numeric-only
branch (the `\d+` match fraction is 1 ≥ 0.98), and emits the character-length
rule with min = max = 1. -/
theorem claim_C7_scenario_rules :
    generate_pbl_for_column scenarioNumericCol =
      [nullsAllowedRule, onlyNumericRule, charLenRule 1 1, noSpecialRule, uniqueRule] ∧
    is_numeric_only scenarioNumericCol (98 / 100) = true ∧
    infer_length_rules scenarioNumericCol = some ⟨1, 1, 1⟩ :=
  ⟨by decide, by decide, by decide⟩

/-- C10 counterexample: the zero-length column has all of its cells missing
(vacuously), yet `generate_pbl_for_column` does not return the claimed three
rules — with no cells there are zero nulls, so the first rule is
"Nulls are NOT allowed.". -/
theorem claim_C10_all_missing_cex :
    (∀ c ∈ ([] : List Cell), c = none) ∧
    generate_pbl_for_column ([] : List Cell) ≠
      [nullsAllowedRule, avoidSpecialRule, uniqueRule] ∧
    generate_pbl_for_column ([] : List Cell) =
      [nullsNotAllowedRule, avoidSpecialRule, uniqueRule] :=
  ⟨by decide, by decide, by decide⟩

/-- C10 (amended): for every column with at least one cell, all of whose
cells are missing, `generate_pbl_for_column` returns exactly
["Nulls are allowed.", "Avoid special characters unless required (/, -, : etc).",
"Values are unique — consider as candidate key."]: no length rule is emitted
(the length helper sees no values) and the uniqueness check vacuously
succeeds (0 distinct = 0 non-null). -/
theorem claim_C10_all_missing_amended (cells : List Cell) (hne : cells ≠ [])
    (hall : ∀ c ∈ cells, c = none) :
    generate_pbl_for_column cells = [nullsAllowedRule, avoidSpecialRule, uniqueRule] := by
  have hdrop : dropnaVals cells = [] := by
    unfold dropnaVals
    rw [List.filterMap_eq_nil_iff]
    intro a ha
    rw [hall a ha]
    rfl
  have hstr : dropnaStr cells = [] := by
    rw [dropnaStr, hdrop]
    rfl
  have hnulls : 0 < countNulls cells := by
    have h := countNulls_add_nonNull cells
    rw [hdrop] at h
    cases cells with
    | nil => exact absurd rfl hne
    | cons c cs =>
      simp only [List.length_nil, Nat.add_zero, List.length_cons] at h
      omega
  have hdist : distinctVals cells = 0 := by
    rw [distinctVals, hdrop]
    rfl
  have hlenr : infer_length_rules cells = none := by
    unfold infer_length_rules
    rw [hstr]
  have hnum : is_numeric_only cells (98 / 100) = false := by
    unfold is_numeric_only
    rw [hstr]
    rfl
  have halpha : is_alpha_only cells (98 / 100) = false := by
    unfold is_alpha_only
    rw [hstr]
    rfl
  unfold generate_pbl_for_column pblNullBlock pblClassBlock pblUniqBlock
  rw [if_pos hnulls]
  simp [hnum, halpha, hstr, hlenr, hdist, hdrop]

/-- C10 amended-claim witness at the concrete all-missing column `[None, None]`. -/
theorem claim_C10_all_missing_amended_witness :
    generate_pbl_for_column [none, none] = [nullsAllowedRule, avoidSpecialRule, uniqueRule] :=
  claim_C10_all_missing_amended [none, none] (by decide) (by decide)

/-- C2: `compute_outliers` returns `{method:"none", count:0}` exactly when
the column has zero numeric-coercible values after coercion and null-dropping
(and, being a total function of the coerced values, never raises on
non-coercible input); otherwise it returns method "IQR",
`lower = Q1 - 1.5·IQR`, `upper = Q3 + 1.5·IQR` for the linear-interpolated
quartiles, and the count of values strictly below `lower` or strictly above
`upper`. -/
theorem claim_C2_outliers_iqr (cells : List Cell) (q0 : ℚ) (qs : List ℚ)
    (hne : coerceDrop cells = q0 :: qs) :
    (∀ cs : List Cell,
      compute_outliers cs = ⟨"none", 0, none, none⟩ ↔ coerceDrop cs = []) ∧
    ((compute_outliers cells).method = "IQR" ∧
      (compute_outliers cells).lower? =
        some (quantileLinear (coerceDrop cells) (1 / 4) -
          3 / 2 * (quantileLinear (coerceDrop cells) (3 / 4) -
            quantileLinear (coerceDrop cells) (1 / 4))) ∧
      (compute_outliers cells).upper? =
        some (quantileLinear (coerceDrop cells) (3 / 4) +
          3 / 2 * (quantileLinear (coerceDrop cells) (3 / 4) -
            quantileLinear (coerceDrop cells) (1 / 4))) ∧
      (compute_outliers cells).count =
        (coerceDrop cells).countP fun x =>
          decide (x < quantileLinear (coerceDrop cells) (1 / 4) -
            3 / 2 * (quantileLinear (coerceDrop cells) (3 / 4) -
              quantileLinear (coerceDrop cells) (1 / 4))) ||
          decide (quantileLinear (coerceDrop cells) (3 / 4) +
            3 / 2 * (quantileLinear (coerceDrop cells) (3 / 4) -
              quantileLinear (coerceDrop cells) (1 / 4)) < x)) := by
  constructor
  · intro cs
    simp only [compute_outliers]
    split_ifs with h
    · constructor
      · intro _
        exact List.isEmpty_iff.mp h
      · intro _
        rfl
    · constructor
      · intro heq
        have : "IQR" = "none" := congrArg OutlierSummary.method heq
        exact absurd this (by decide)
      · intro hnil
        exact absurd (List.isEmpty_iff.mpr hnil) (by simp [h])
  · have hne' : (coerceDrop cells).isEmpty = false := by
      rw [hne]
      rfl
    refine ⟨?_, ?_, ?_, ?_⟩ <;>
      simp only [compute_outliers, hne', Bool.false_eq_true, if_false,
        List.countP_eq_length_filter]

/-- C2 witness at `[1,2,3,4,100]`: the quartiles are 2 and 4, the fences -1
and 7, and exactly one value (100) lies strictly outside. -/
theorem claim_C2_outliers_iqr_witness :
    (compute_outliers outlierDemoCol).method = "IQR" ∧
    (compute_outliers outlierDemoCol).lower? = some (-1) ∧
    (compute_outliers outlierDemoCol).upper? = some 7 ∧
    (compute_outliers outlierDemoCol).count = 1 := by
  have h := claim_C2_outliers_iqr outlierDemoCol 1 [2, 3, 4, 100] (by decide)
  exact ⟨h.2.1, by decide, by decide, by decide⟩

/-- C4 (code-bug evidence): the rule "Nulls allowed (reference permits
nulls)." can never be emitted by `derive_rules_from_reference` — the source
checks `isna()` on the already null-dropped series, so the reference-has-nulls
branch is unreachable — and on the failing input (reference `[None, "A"]`,
which does contain a null, against target `["A"]`) the function instead emits
"Nulls are NOT allowed (reference has no nulls)." as its first rule. -/
theorem claim_C4_reference_nulls_code_bug :
    (∀ (t r : List Cell) (thr : ℚ),
      nullsAllowedRefRule ∉ derive_rules_from_reference t r thr) ∧
    (derive_rules_from_reference nullDemoTarget nullDemoReference (95 / 100)).head? =
      some nullsNotAllowedRefRule := by
  constructor
  · intro t r thr h
    simp only [derive_rules_from_reference, List.mem_append] at h
    rcases h with ((((((h | h) | h) | h) | h) | h) | h)
    · rw [refNullBlock_eq] at h
      simp only [List.mem_singleton] at h
      exact absurd h (by decide)
    · exact absurd (mem_refKeyBlock h) (by decide)
    · rcases mem_refEnumBlock h with ⟨k, hk⟩ | ⟨xs, hk⟩ | ⟨k, hk⟩ | ⟨q, hk⟩ | ⟨q, hk⟩ | hk
      · exact absurd hk.symm (string_ne_of_head (enumRuleStr_head k) nullsAllowedRefRule_head (by decide))
      · exact absurd hk.symm (string_ne_of_head (sampleRuleStr_head xs) nullsAllowedRefRule_head (by decide))
      · exact absurd hk.symm (string_ne_of_head (bigListRuleStr_head k) nullsAllowedRefRule_head (by decide))
      · exact absurd hk.symm (string_ne_of_head (fracRuleStr_head q) nullsAllowedRefRule_head (by decide))
      · exact absurd hk.symm (partialRuleStr_ne q nullsAllowedRefRule (by decide))
      · exact absurd hk (by decide)
    · rw [refNumBlock_eq] at h
      exact absurd h (List.not_mem_nil _)
    · rcases mem_refPatternBlock h with ⟨p, hp⟩
      exact absurd hp.symm (string_ne_of_head (suggPatternRule_head p) nullsAllowedRefRule_head (by decide))
    · rcases mem_refCountBlock h with ⟨n, hn⟩ | ⟨n, hn⟩
      · exact absurd hn.symm (string_ne_of_head (refDistinctRule_head n) nullsAllowedRefRule_head (by decide))
      · exact absurd hn.symm (string_ne_of_head (tgtDistinctRule_head n) nullsAllowedRefRule_head (by decide))
    · rcases mem_refUniqBlock h with hu | hu
      · exact absurd hu (by decide)
      · exact absurd hu (by decide)
  · decide

/-- C6 (code-bug evidence): the numeric-range branch of
`derive_rules_from_reference` is dead — the dtype test runs on the
stringified series, so the range block is always empty — and on the failing
numeric-coercible input (target `[1,2]`, reference `[3,4]`) the output
contains no "Numeric range observed in target"/"Reference numeric range"
rule, instead being exactly the list below. -/
theorem claim_C6_numeric_range_code_bug :
    (∀ t r : List String, refNumBlock t r = []) ∧
    derive_rules_from_reference numDemoTarget numDemoReference (95 / 100) =
      [nullsNotAllowedRefRule, refKeyRule, noOverlapRule, suggPatternRule "^\\d+$",
        refDistinctRule 2, tgtDistinctRule 2, tgtUniqueRule] ∧
    (derive_rules_from_reference numDemoTarget numDemoReference (95 / 100)).all
      (fun s => !(List.isPrefixOf "Numeric range".data s.data) &&
        !(List.isPrefixOf "Reference numeric range".data s.data)) = true :=
  ⟨fun t r => refNumBlock_eq t r, by decide, by decide⟩

theorem lowTgtRule_head : lowTgtRule.data.head? = some 'L' := by decide

theorem lowCardRule_head : lowCardRule.data.head? = some 'L' := by decide

theorem lowCard_ne_nulls (col : String) (d n : Nat) :
    lowCardInsight col d ≠ nullsInsight col n := by
  unfold lowCardInsight nullsInsight
  exact string_append_right_ne
    (string_ne_of_head (string_head_append _ _ 'a' (by decide))
      (string_head_append _ _ 'h' (by decide)) (by decide))

theorem lowCard_ne_outlier (col : String) (d c : Nat) :
    lowCardInsight col d ≠ outlierInsight col c := by
  unfold lowCardInsight outlierInsight
  exact string_append_right_ne
    (string_ne_of_head (string_head_append _ _ 'a' (by decide))
      (string_head_append _ _ 'h' (by decide)) (by decide))

theorem matchesCategory_numeric (v : String) : matchesCategory "numeric" v = isDigits v := rfl

theorem matchesCategory_alpha (v : String) : matchesCategory "alpha" v = isAlphaSpaces v := rfl

theorem matchesCategory_email (v : String) : matchesCategory "email-like" v = hasAtSign v := rfl

theorem matchesCategory_date (v : String) : matchesCategory "date-like" v = dateLikeStr v := rfl

theorem matchedCategories_eq (cs : List Cell) :
    matchedCategories cs =
      (if (dropnaStr cs).any isAlphaSpaces then ["alpha"] else []) ++
        ((if (dropnaStr cs).any dateLikeStr then ["date-like"] else []) ++
          ((if (dropnaStr cs).any hasAtSign then ["email-like"] else []) ++
            (if (dropnaStr cs).any isDigits then ["numeric"] else []))) := by
  simp only [matchedCategories, categoryNames, List.filter_cons, List.filter_nil,
    matchesCategory_alpha, matchesCategory_date, matchesCategory_email, matchesCategory_numeric]
  split_ifs <;> simp_all

/-- The source's `detect_pattern` written the spec's way: empty label, else
the matched categories joined in lexicographic order, else "mixed". -/
theorem detect_pattern_eq (cs : List Cell) :
    detect_pattern cs =
      if dropnaStr cs = [] then "empty"
      else if matchedCategories cs = [] then "mixed"
      else String.intercalate ", " (matchedCategories cs) := by
  rw [matchedCategories_eq]
  simp only [detect_pattern]
  by_cases h0 : dropnaStr cs = []
  · simp [h0]
  · have hne : (dropnaStr cs).isEmpty = false := by
      simp [List.isEmpty_iff, h0]
    simp only [hne, Bool.false_eq_true, if_false, if_neg h0]
    simp [List.isEmpty_iff]

theorem categoryNames_sorted : categoryNames.Sorted (· < ·) := by
  simp [categoryNames, List.sorted_cons]
  decide

/-- C3: `detect_pattern` returns "empty" exactly for columns whose cells are
all missing; a non-empty column of at most 500 rows (full sampling) whose
non-null values all match `\d+` and no other category is labelled exactly
"numeric"; and in general the label is the set of matched categories joined
by ", " in lexicographic order, or "mixed" when no sampled value matched any
category. -/
theorem claim_C3_detect_pattern (cells : List Cell) (v : String) (vs : List String)
    (hlen : cells.length ≤ 500)
    (hs : dropnaStr cells = v :: vs)
    (hd : ∀ u ∈ dropnaStr cells,
      isDigits u = true ∧ isAlphaSpaces u = false ∧ hasAtSign u = false ∧
        dateLikeStr u = false) :
    (∀ cs : List Cell, detect_pattern cs = "empty" ↔ dropnaStr cs = []) ∧
    detect_pattern cells = "numeric" ∧
    (∀ cs : List Cell,
      detect_pattern cs =
        if dropnaStr cs = [] then "empty"
        else if matchedCategories cs = [] then "mixed"
        else String.intercalate ", " (matchedCategories cs)) ∧
    (∀ cs : List Cell, (matchedCategories cs).Sorted (· < ·)) := by
  refine ⟨?_, ?_, fun cs => detect_pattern_eq cs, ?_⟩
  · intro cs
    rw [detect_pattern_eq cs, matchedCategories_eq cs]
    by_cases h0 : dropnaStr cs = []
    · simp [h0]
    · simp only [h0, if_neg h0, iff_false]
      cases hA : (dropnaStr cs).any isAlphaSpaces <;>
        cases hB : (dropnaStr cs).any dateLikeStr <;>
          cases hC : (dropnaStr cs).any hasAtSign <;>
            cases hD : (dropnaStr cs).any isDigits <;>
              simp <;> decide
  · have hA : (dropnaStr cells).any isAlphaSpaces = false := by
      rw [List.any_eq_false]
      intro u hu
      simp [(hd u hu).2.1]
    have hB : (dropnaStr cells).any dateLikeStr = false := by
      rw [List.any_eq_false]
      intro u hu
      simp [(hd u hu).2.2.2]
    have hC : (dropnaStr cells).any hasAtSign = false := by
      rw [List.any_eq_false]
      intro u hu
      simp [(hd u hu).2.2.1]
    have hD : (dropnaStr cells).any isDigits = true := by
      rw [List.any_eq_true]
      exact ⟨v, by rw [hs]; exact List.mem_cons_self v vs, (hd v (by rw [hs]; exact List.mem_cons_self v vs)).1⟩
    rw [detect_pattern_eq cells, matchedCategories_eq cells, hA, hB, hC, hD, hs]
    rw [if_neg (List.cons_ne_nil v vs)]
    decide
  · intro cs
    exact List.Pairwise.sublist (List.filter_sublist _) categoryNames_sorted

/-- C3 witness at the all-digit column `["12", "007", None]` (3 rows ≤ 500). -/
theorem claim_C3_detect_pattern_witness :
    detect_pattern digitsDemoCol = "numeric" :=
  (claim_C3_detect_pattern digitsDemoCol "12" ["007"] (by decide) (by decide) (by decide)).2.1

/-- C5: when the target and reference are non-empty, the overlap fraction
reaches the enumeration threshold and the (200-capped, sorted) distinct
reference set has at most 50 values, `derive_rules_from_reference` emits the
enumeration rule, the 20-value sample rule and the 2-decimal overlap-fraction
rule; in the spec's scenario (target `["A","B","C"]`, reference
`["A","B","C","D","E"]`, threshold 0.95) the overlap fraction is 1.0,
formatted "1.00", with an enumeration of 5 values. -/
theorem claim_C5_enumeration (target reference : List Cell) (thr : ℚ)
    (ht : dropnaStr target ≠ []) (hr : dropnaStr reference ≠ [])
    (hov : thr ≤ overlapFrac (dropnaStr target) (dropnaStr reference))
    (hk : ((sortStrings (dropnaStr reference).dedup).take 200).length ≤ 50) :
    (enumRuleStr ((sortStrings (dropnaStr reference).dedup).take 200).length ∈
        derive_rules_from_reference target reference thr ∧
      sampleRuleStr (((sortStrings (dropnaStr reference).dedup).take 200).take 20) ∈
        derive_rules_from_reference target reference thr ∧
      fracRuleStr (overlapFrac (dropnaStr target) (dropnaStr reference)) ∈
        derive_rules_from_reference target reference thr) ∧
    (overlapFrac (dropnaStr demoTarget) (dropnaStr demoReference) = 1 ∧
      fmt2 1 = "1.00" ∧
      derive_rules_from_reference demoTarget demoReference (95 / 100) =
        [nullsNotAllowedRefRule, refKeyRule, enumRuleStr 5,
          sampleRuleStr ["A", "B", "C", "D", "E"], fracRuleStr 1,
          suggPatternRule "^.\x7b1,1\x7d$", refDistinctRule 5, tgtDistinctRule 3,
          tgtUniqueRule]) := by
  constructor
  · have hcond : 0 < (dropnaStr reference).length ∧ 0 < (dropnaStr target).length :=
      ⟨List.length_pos.mpr hr, List.length_pos.mpr ht⟩
    have henum : refEnumBlock (dropnaStr target) (dropnaStr reference) thr =
        [enumRuleStr ((sortStrings (dropnaStr reference).dedup).take 200).length,
          sampleRuleStr (((sortStrings (dropnaStr reference).dedup).take 200).take 20),
          fracRuleStr (overlapFrac (dropnaStr target) (dropnaStr reference))] := by
      simp only [refEnumBlock, if_pos hcond, if_pos hov, if_pos hk]
      rfl
    have hsub : ∀ x, x ∈ refEnumBlock (dropnaStr target) (dropnaStr reference) thr →
        x ∈ derive_rules_from_reference target reference thr := by
      intro x hx
      simp only [derive_rules_from_reference, List.mem_append]
      exact Or.inl (Or.inl (Or.inl (Or.inl (Or.inr hx))))
    refine ⟨hsub _ ?_, hsub _ ?_, hsub _ ?_⟩ <;> rw [henum] <;> simp
  · exact ⟨by decide, by decide, by decide⟩

/-- C5 witness at the spec's scenario inputs. -/
theorem claim_C5_enumeration_witness :
    enumRuleStr 5 ∈ derive_rules_from_reference demoTarget demoReference (95 / 100) ∧
    sampleRuleStr ["A", "B", "C", "D", "E"] ∈
      derive_rules_from_reference demoTarget demoReference (95 / 100) ∧
    fracRuleStr 1 ∈ derive_rules_from_reference demoTarget demoReference (95 / 100) := by
  obtain ⟨h1, h2, h3⟩ := (claim_C5_enumeration demoTarget demoReference (95 / 100)
    (by decide) (by decide) (by decide) (by decide)).1
  refine ⟨?_, ?_, ?_⟩
  · have he : ((sortStrings (dropnaStr demoReference).dedup).take 200).length = 5 := by decide
    rw [he] at h1
    exact h1
  · have he : ((sortStrings (dropnaStr demoReference).dedup).take 200).take 20 =
        ["A", "B", "C", "D", "E"] := by decide
    rw [he] at h2
    exact h2
  · have he : overlapFrac (dropnaStr demoTarget) (dropnaStr demoReference) = 1 := by decide
    rw [he] at h3
    exact h3

/-- C8: `profile_dataframe` produces a correlation matrix exactly when the
dataset has at least 2 numeric-dtype columns (`None` otherwise), each entry
being the Pearson correlation rounded to 3 decimals (`corrMatrix`); for the
two numeric columns `[1,2,3]` and `[3,2,1]` the cross entries are −1.000 and
the diagonal entries 1.000. -/
theorem claim_C8_correlations :
    (∀ df : List (String × Series),
      ((profile_dataframe df).correlations).isSome = true ↔ 2 ≤ (numericCols df).length) ∧
    (∀ df : List (String × Series),
      (profile_dataframe df).correlations =
        if 2 ≤ (numericCols df).length then some (corrMatrix (numericCols df)) else none) ∧
    (profile_dataframe corrDemoDf).correlations =
      some [("x", [("x", some 1), ("y", some (-1))]),
        ("y", [("x", some (-1)), ("y", some 1)])] := by
  refine ⟨?_, fun df => rfl, by decide⟩
  intro df
  simp only [profile_dataframe]
  split_ifs with h <;> simp [h]

/-- C9: every distinct-ratio computation divides by `max(1, total)`
(`distinctRatio`; multiplying back by that denominator always recovers the
distinct count, so no profiling or rule-generation call divides by zero, a
zero-length column included), and at each of the three sites the
low-cardinality insight/rule is emitted exactly when the guarded ratio is
below 0.02 within the enclosing branch (non-numeric dtype for the profiler,
non-all-unique values for the two rule generators). -/
theorem claim_C9_guarded_ratio :
    (∀ d n : Nat, distinctRatio d n * ((max 1 n : Nat) : ℚ) = (d : ℚ)) ∧
    (∀ (name : String) (s : Series),
      lowCardInsight name (distinctVals s.cells) ∈ (profileColumn name s).2 ↔
        (s.dtypeNumeric = false ∧
          distinctRatio (distinctVals s.cells) s.cells.length < 2 / 100)) ∧
    (∀ cells : List Cell,
      lowCardRule ∈ generate_pbl_for_column cells ↔
        (distinctVals cells ≠ (dropnaVals cells).length ∧
          distinctRatio (distinctVals cells) cells.length < 2 / 100)) ∧
    (∀ (target reference : List Cell) (thr : ℚ),
      lowTgtRule ∈ derive_rules_from_reference target reference thr ↔
        ((dropnaStr target).dedup.length ≠ (dropnaStr target).length ∧
          distinctRatio (dropnaStr target).dedup.length (dropnaStr target).length <
            2 / 100)) := by
  refine ⟨?_, ?_, ?_, ?_⟩
  · intro d n
    unfold distinctRatio
    have hb : (0 : ℚ) < ((max 1 n : Nat) : ℚ) := by
      exact_mod_cast Nat.lt_of_lt_of_le Nat.zero_lt_one (Nat.le_max_left 1 n)
    exact div_mul_cancel₀ _ hb.ne'
  · intro name s
    by_cases hdt : s.dtypeNumeric
    · have h2 : (profileColumn name s).2 =
          (if 0 < (compute_outliers s.cells).count then
            [outlierInsight name (compute_outliers s.cells).count] else []) := by
        simp [profileColumn, hdt]
      rw [h2]
      constructor
      · intro h
        split at h
        · simp only [List.mem_singleton] at h
          exact absurd h (lowCard_ne_outlier name _ _)
        · exact absurd h (List.not_mem_nil _)
      · rintro ⟨hfalse, -⟩
        rw [hdt] at hfalse
        cases hfalse
    · have hdt' : s.dtypeNumeric = false := by simpa using hdt
      have h2 : (profileColumn name s).2 =
          ((if 0 < countNulls s.cells then [nullsInsight name (countNulls s.cells)] else []) ++
            (if distinctRatio (distinctVals s.cells) s.cells.length < 2 / 100 then
              [lowCardInsight name (distinctVals s.cells)] else [])) := by
        simp [profileColumn, hdt']
      rw [h2, List.mem_append]
      by_cases hc : distinctRatio (distinctVals s.cells) s.cells.length < 2 / 100
      · simp [hc, hdt']
      · simp only [hc, if_false, List.not_mem_nil, or_false, hdt', iff_false, true_and]
        intro h
        split at h
        · simp only [List.mem_singleton] at h
          exact absurd h (lowCard_ne_nulls name _ _)
        · exact absurd h (List.not_mem_nil _)
  · intro cells
    constructor
    · intro h
      simp only [generate_pbl_for_column, List.mem_append] at h
      rcases h with (h | h) | h
      · rcases mem_pblNullBlock h with h' | h' <;> exact absurd h' (by decide)
      · rcases mem_pblClassBlock h with h' | ⟨a, b, h'⟩ | h' | h' | h' | h' | ⟨a, b, h'⟩ | h'
        · exact absurd h' (by decide)
        · exact absurd h'.symm (string_ne_of_head (charLenRule_head a b) lowCardRule_head (by decide))
        · exact absurd h' (by decide)
        · exact absurd h' (by decide)
        · exact absurd h' (by decide)
        · exact absurd h' (by decide)
        · exact absurd h'.symm (string_ne_of_head (recLenRule_head a b) lowCardRule_head (by decide))
        · exact absurd h' (by decide)
      · exact (lowCard_mem_pblUniqBlock_iff cells).mp h
    · intro hc
      simp only [generate_pbl_for_column, List.mem_append]
      exact Or.inr ((lowCard_mem_pblUniqBlock_iff cells).mpr hc)
  · intro target reference thr
    constructor
    · intro h
      simp only [derive_rules_from_reference, List.mem_append] at h
      rcases h with ((((((h | h) | h) | h) | h) | h) | h)
      · rw [refNullBlock_eq] at h
        simp only [List.mem_singleton] at h
        exact absurd h (by decide)
      · exact absurd (mem_refKeyBlock h) (by decide)
      · rcases mem_refEnumBlock h with ⟨k, hk⟩ | ⟨xs, hk⟩ | ⟨k, hk⟩ | ⟨q, hk⟩ | ⟨q, hk⟩ | hk
        · exact absurd hk.symm (string_ne_of_head (enumRuleStr_head k) lowTgtRule_head (by decide))
        · exact absurd hk.symm (string_ne_of_head (sampleRuleStr_head xs) lowTgtRule_head (by decide))
        · exact absurd hk.symm (string_ne_of_head (bigListRuleStr_head k) lowTgtRule_head (by decide))
        · exact absurd hk.symm (string_ne_of_head (fracRuleStr_head q) lowTgtRule_head (by decide))
        · exact absurd hk.symm (partialRuleStr_ne q lowTgtRule (by decide))
        · exact absurd hk (by decide)
      · rw [refNumBlock_eq] at h
        exact absurd h (List.not_mem_nil _)
      · rcases mem_refPatternBlock h with ⟨p, hp⟩
        exact absurd hp.symm (string_ne_of_head (suggPatternRule_head p) lowTgtRule_head (by decide))
      · rcases mem_refCountBlock h with ⟨n, hn⟩ | ⟨n, hn⟩
        · exact absurd hn.symm (string_ne_of_head (refDistinctRule_head n) lowTgtRule_head (by decide))
        · exact absurd hn.symm (string_ne_of_head (tgtDistinctRule_head n) lowTgtRule_head (by decide))
      · exact (lowTgt_mem_refUniqBlock_iff _).mp h
    · intro hc
      simp only [derive_rules_from_reference, List.mem_append]
      exact Or.inr ((lowTgt_mem_refUniqBlock_iff _).mpr hc)

end ClaimTheorems
